import Mathlib

/-!
Verification of the browser spreadsheet editor's document/grid
reconciliation, CSV serialization, structural edits and autosave
scheduling, as implemented in `src/app/excel-edit/page.tsx` and in the
sibling revision of the same page (`src/unnamed/part_000`).

JavaScript row objects are modelled as association lists in insertion
order with unique keys (as JS object keys always are): `jsGet` models a
property read (`row[h]`), `jsSet` models a property assignment
(`obj[h] = v`, overwrite in place or append at the end).
-/

/-- A JavaScript object with string values: an association list in
insertion order whose keys are unique. -/
abbrev Obj := List (String × String)

/-- Property read `o[k]`: the (unique) matching key, `none` when absent. -/
def jsGet : Obj → String → Option String
  | [], _ => none
  | (k', v) :: rest, k => if k' = k then some v else jsGet rest k

/-- Property write `o[k] = v`: overwrite the existing entry in place,
otherwise append a new entry at the end. -/
def jsSet : Obj → String → String → Obj
  | [], k, v => [(k, v)]
  | (k', v') :: rest, k, v =>
      if k' = k then (k, v) :: rest else (k', v') :: jsSet rest k v

/-- The row read used throughout both pages: `row?.[h] ?? ""`. -/
def rowValue (o : Obj) (h : String) : String := (jsGet o h).getD ""

/-- Grid-load effect (src/unnamed/part_000 lines 139-164), object-row
branch: one data row of the dense grid holds the row's value for each
header in header order, a missing value rendering as `""`. -/
def toGridRow (headers : List String) (o : Obj) : List String :=
  headers.map (rowValue o)

/-- Grid-load effect: the header row first, then the data rows. -/
def toGrid (headers : List String) (rows : List Obj) : List (List String) :=
  headers :: rows.map (toGridRow headers)

/-- saveFile reconciliation core (src/unnamed/part_000 lines 176-182):
`headers.forEach((h, i) => { obj[h] = row[i]; })`, assigning cells to
keys left to right. `cells.getD i ""` models `row[i]`; in every use
below the row has at least `headers.length` cells. -/
def rowToObjAux : List String → Nat → List String → Obj → Obj
  | [], _, _, o => o
  | h :: hs, i, cells, o => rowToObjAux hs (i + 1) cells (jsSet o h (cells.getD i ""))

/-- One grid row keyed by header position, as the save path builds it. -/
def rowToObj (headers cells : List String) : Obj :=
  rowToObjAux headers 0 cells []

/-- saveFile (src/unnamed/part_000 lines 167-182): grid row 0 becomes the
header list and every later row is keyed by header position; an empty
grid aborts the save (`none`). -/
def fromGridPair : List (List String) → Option (List String × List Obj)
  | [] => none
  | hs :: rest => some (hs, rest.map (rowToObj hs))

/-- Persist an edited grid through the save path, then materialize the
persisted document into a grid again through the load path. -/
def saveThenLoad (g : List (List String)) : Option (List (List String)) :=
  (fromGridPair g).map (fun p => toGrid p.1 p.2)

/-- Index of the last occurrence of `a` in `l` (meaningful when `a ∈ l`);
the occurrence whose write survives in a left-to-right object build. -/
def lastIdx : List String → String → Nat
  | [], _ => 0
  | _ :: t, a => if a ∈ t then lastIdx t a + 1 else 0

/-- Model of `cellStr.replace(/"/g, '""')` in handleDownload
(src/unnamed/part_000 line 243): every double quote is doubled and all
other characters are kept. -/
def escapeQuotes (s : String) : String :=
  String.mk (s.data.foldr (fun c acc => if c = '"' then '"' :: '"' :: acc else c :: acc) [])

/-- handleDownload's quoting test (src/unnamed/part_000 line 242): the
cell string includes a comma, a double quote, or a newline. -/
def csvNeedsQuote (s : String) : Bool :=
  s.data.any (fun c => c == ',' || c == '"' || c == '\n')

/-- handleDownload's per-cell serialization (src/unnamed/part_000 lines
239-246): `String(cell ?? "")`, quoted with doubled quotes when the
quoting test fires, returned verbatim otherwise. -/
def csvCell (cell : Option String) : String :=
  let cellStr := cell.getD ""
  if csvNeedsQuote cellStr then "\"" ++ escapeQuotes cellStr ++ "\"" else cellStr

/-- handleDownload's whole-grid serialization (src/unnamed/part_000 lines
237-249): cells joined by `","`, rows joined by `"\n"`. -/
def csvContent (data : List (List (Option String))) : String :=
  String.intercalate "\n" (data.map (fun row => String.intercalate "," (row.map csvCell)))

/-- Spec 4.8 wording of the quoting trigger: the cell "contains a comma,
a double quote, or a newline". -/
def specNeedsQuote (s : String) : Prop :=
  ',' ∈ s.data ∨ '"' ∈ s.data ∨ '\n' ∈ s.data

/-- Spec 4.8 wording of the escape: "internal double quotes doubled". -/
def specDoubleQuotes (s : String) : String :=
  String.mk (s.data.flatMap (fun c => if c = '"' then ['"', '"'] else [c]))

/-- Output-shape test: the serialized cell is wrapped in double quotes
(it starts and ends with a double quote and those are two characters). -/
def isQuotedOutput (s : String) : Bool :=
  (s.data.head? == some '"') && (s.data.getLast? == some '"') && decide (2 ≤ s.data.length)

/-- A raw fetched row: a JSON array or a JSON object. -/
inductive RawRow where
  | arr (cells : List String)
  | obj (o : Obj)

/-- fetchFile header normalization (src/unnamed/part_000 lines 100-119):
`rawHeaders = none` models a non-array `headers` field; entries are
trimmed and empty ones dropped; an empty result falls back to the first
row's shape and finally to `["Column 1"]`. -/
def fetchHeaders (rawHeaders : Option (List String)) (rows : List RawRow) : List String :=
  let hs0 := ((rawHeaders.getD []).map String.trim).filter (fun s => s != "")
  let hs1 :=
    if hs0.isEmpty then
      match rows with
      | [] => []
      | RawRow.arr cells :: _ =>
          (List.range cells.length).map (fun i => "Column " ++ toString (i + 1))
      | RawRow.obj o :: _ => o.map (fun p => p.1)
    else hs0
  if hs1.isEmpty then ["Column 1"] else hs1

/-- `hot.alter("remove_col", startCol, amount)` acting on one grid row:
the cells at positions `startCol..startCol+amount-1` are removed. -/
def removeColsRow (startCol amount : Nat) (row : List String) : List String :=
  row.take startCol ++ row.drop (startCol + amount)

/-- handleDeleteColumn (src/unnamed/part_000 lines 365-377): a selection
spanning columns `col1..col2` removes that span from every grid row,
the header row included; no floor of one column is applied anywhere. -/
def handleDeleteColumn (col1 col2 : Nat) (g : List (List String)) : List (List String) :=
  g.map (removeColsRow (min col1 col2) (max col1 col2 - min col1 col2 + 1))

/-- Rows of the page.tsx document; `none` is a hole left by a sparse
array write past the end (`newRows[rowIndex] = {...}` out of range). -/
abbrev SparseRows := List (Option Obj)

/-- handleCellChange (src/app/excel-edit/page.tsx lines 143-154): copies
the rows, installs an empty object when `newRows[rowIndex]` is falsy
(absent or a hole), then assigns `[header]: value`; an out-of-range
index extends the array, leaving holes at the skipped positions. -/
def handleCellChange (rows : SparseRows) (rowIndex : Nat) (header value : String) : SparseRows :=
  let padded := if rowIndex < rows.length then rows
    else rows ++ List.replicate (rowIndex + 1 - rows.length) none
  padded.set rowIndex (some (jsSet ((padded.getD rowIndex none).getD []) header value))

/-- handleHotChange (src/app/excel-edit/page.tsx lines 156-176), string
prop case: the prop is looked up in the headers with `indexOf`; a miss
(`colIndex < 0`) silently skips the change, otherwise the change flows
through handleCellChange with `header = headers[colIndex] = prop`. -/
def handleHotChangeStr (headers : List String) (rows : SparseRows) (rowIndex : Nat)
    (prop value : String) : SparseRows :=
  if prop ∈ headers then handleCellChange rows rowIndex prop value else rows

/-- Build a fresh row object by assigning `f h` to every header left to
right (`newHeaders.forEach(header => { nextRow[header] = ... })`). -/
def buildRowAux : List String → (String → String) → Obj → Obj
  | [], _, o => o
  | h :: hs, f, o => buildRowAux hs f (jsSet o h (f h))

/-- handleAddColumn's per-row rebuild (src/app/excel-edit/page.tsx lines
232-242): `nextRow[header] = header === newHeader ? "" : row[header] ?? ""`. -/
def addColumnRow (newHeaders : List String) (newHeader : String) (row : Obj) : Obj :=
  buildRowAux newHeaders (fun h => if h = newHeader then "" else rowValue row h) []

/-- handleAddColumn (src/app/excel-edit/page.tsx lines 220-246): the
auto-label is `Column N` with `N` = current header count + 1, spliced in
at `insertIndex`; every row is rebuilt over the new header list. -/
def handleAddColumn (headers : List String) (rows : List Obj) (insertIndex : Nat) :
    List String × List Obj :=
  let newHeader := "Column " ++ toString (headers.length + 1)
  let newHeaders := headers.take insertIndex ++ newHeader :: headers.drop insertIndex
  (newHeaders, rows.map (addColumnRow newHeaders newHeader))

/-- A live `setTimeout` registered by scheduleAutoSave: its handle, its
due time, and the Document snapshot captured by its saveFile closure. -/
structure Timer (D : Type) where
  tid : Nat
  fireAt : Nat
  snap : D
  deriving DecidableEq

/-- One PUT flush: when it was dispatched and the Document payload the
request body carries (fixed at dispatch time). -/
structure Flush (D : Type) where
  startedAt : Nat
  payload : D
  deriving DecidableEq

/-- State of the page.tsx autosave machinery over an abstract Document
type `D`: the current `editedData`, the live timers with the handle the
`saveTimeout` state variable stores, a fresh-handle counter, the flushes
whose fetch has not yet settled, the log of every flush ever dispatched,
and whether the view is still mounted. -/
structure AutoState (D : Type) where
  editedData : D
  timers : List (Timer D)
  savedHandle : Option Nat
  nextId : Nat
  inFlight : List (Flush D)
  flushLog : List (Flush D)
  mounted : Bool
  deriving DecidableEq

/-- Events of the single-threaded event sequence driving the page. -/
inductive AEvent (D : Type) where
  | mutate (t : Nat) (d : D)
  | fire (t : Nat)
  | resolve (t : Nat)
  | manual (t : Nat)
  | unmount (t : Nat)

/-- scheduleAutoSave (src/app/excel-edit/page.tsx lines 131-141): clears
the timer whose handle the `saveTimeout` state stores, then registers a
fresh 2000ms timer. The new timer's callback is the scheduling render's
`saveFile`, whose closure captured `editedData` as it was in that render
- the state from before the `setEditedData` call of the mutation doing
the scheduling - hence `snap := s.editedData` here. -/
def schedule {D : Type} (t : Nat) (s : AutoState D) : AutoState D :=
  { s with
    timers := s.timers.filter (fun tm => !(some tm.tid == s.savedHandle)) ++
      [⟨s.nextId, t + 2000, s.editedData⟩],
    savedHandle := some s.nextId,
    nextId := s.nextId + 1 }

/-- saveFile's fetch dispatch: one PUT starts, carrying payload `d`. -/
def startFlush {D : Type} (t : Nat) (d : D) (s : AutoState D) : AutoState D :=
  { s with inFlight := s.inFlight ++ [⟨t, d⟩], flushLog := s.flushLog ++ [⟨t, d⟩] }

/-- One step of the event sequence (src/app/excel-edit/page.tsx).
`mutate`: a cell edit applies synchronously and reschedules the debounce
timer. `fire`: every timer due at `t` runs its saveFile closure - the
code makes no in-flight check, so the flush is dispatched at once with
the captured snapshot. `resolve`: a fetch settles; the `finally` block
only clears `saving`, nothing else runs. `manual`: the Save button
(disabled while `saving` is set) flushes the current `editedData`
immediately and leaves the timer alone. `unmount`: the mount effect
returns no cleanup, so navigation away clears nothing. -/
def step {D : Type} (s : AutoState D) : AEvent D → AutoState D
  | AEvent.mutate t d => if s.mounted then { schedule t s with editedData := d } else s
  | AEvent.fire t =>
      (s.timers.filter (fun tm => tm.fireAt == t)).foldl
        (fun acc tm => startFlush t tm.snap acc)
        { s with timers := s.timers.filter (fun tm => !(tm.fireAt == t)) }
  | AEvent.resolve _ => { s with inFlight := s.inFlight.drop 1 }
  | AEvent.manual t =>
      if s.mounted && s.inFlight.isEmpty then startFlush t s.editedData s else s
  | AEvent.unmount _ => { s with mounted := false }

/-- The state right after a successful load of document `d`. -/
def initState {D : Type} (d : D) : AutoState D :=
  { editedData := d, timers := [], savedHandle := none, nextId := 0,
    inFlight := [], flushLog := [], mounted := true }

/-- Run an event sequence from a freshly loaded document. -/
def run {D : Type} (d : D) (evs : List (AEvent D)) : AutoState D :=
  evs.foldl step (initState d)

/-- Pending-timer discipline: at most one live timer, namely the one
whose handle the `saveTimeout` state variable stores. -/
def timersOk {D : Type} (s : AutoState D) : Prop :=
  s.timers = [] ∨ ∃ tm, s.timers = [tm] ∧ some tm.tid = s.savedHandle

/-! ## Laws of the JS object model -/

theorem jsGet_jsSet (o : Obj) (k v q : String) :
    jsGet (jsSet o k v) q = if k = q then some v else jsGet o q := by
  induction o with
  | nil =>
      by_cases h : k = q <;> simp [jsSet, jsGet, h]
  | cons p rest ih =>
      obtain ⟨k2, v2⟩ := p
      by_cases h2 : k2 = k
      · subst h2
        by_cases h : k2 = q <;> simp [jsSet, jsGet, h]
      · by_cases h : k2 = q
        · subst h
          have hk : k ≠ k2 := fun hh => h2 hh.symm
          simp [jsSet, jsGet, h2, hk]
        · simp [jsSet, jsGet, h2, h, ih]

theorem rowToObjAux_get_notmem (hs : List String) (i : Nat) (cells : List String)
    (o : Obj) (h : String) (hnm : h ∉ hs) :
    jsGet (rowToObjAux hs i cells o) h = jsGet o h := by
  induction hs generalizing i o with
  | nil => rfl
  | cons a t ih =>
      have hne : a ≠ h := fun hh => hnm (hh ▸ List.mem_cons_self a t)
      have hnt : h ∉ t := fun hh => hnm (List.mem_cons_of_mem a hh)
      rw [rowToObjAux, ih _ _ hnt, jsGet_jsSet, if_neg hne]

theorem rowToObjAux_get_mem (hs : List String) (i : Nat) (cells : List String)
    (o : Obj) (h : String) (hm : h ∈ hs) :
    jsGet (rowToObjAux hs i cells o) h = some (cells.getD (i + lastIdx hs h) "") := by
  induction hs generalizing i o with
  | nil => cases hm
  | cons a t ih =>
      by_cases ht : h ∈ t
      · rw [rowToObjAux, ih _ _ ht]
        have h2 : i + 1 + lastIdx t h = i + lastIdx (a :: t) h := by
          simp only [lastIdx, if_pos ht]
          omega
        rw [h2]
      · have ha : a = h := by
          rcases List.mem_cons.mp hm with h1 | h1
          · exact h1.symm
          · exact absurd h1 ht
        have h0 : lastIdx (a :: t) h = 0 := by simp [lastIdx, ht]
        rw [rowToObjAux, rowToObjAux_get_notmem _ _ _ _ _ ht, jsGet_jsSet, if_pos ha, h0,
          Nat.add_zero]

theorem lastIdx_getD (hs : List String) (h : String) (hm : h ∈ hs) :
    hs.getD (lastIdx hs h) "" = h := by
  induction hs with
  | nil => cases hm
  | cons a t ih =>
      by_cases ht : h ∈ t
      · simp only [lastIdx, if_pos ht]
        simpa using ih ht
      · have ha : a = h := by
          rcases List.mem_cons.mp hm with h1 | h1
          · exact h1.symm
          · exact absurd h1 ht
        simp [lastIdx, ht, ha]

theorem lastIdx_lt_length (hs : List String) (h : String) (hm : h ∈ hs) :
    lastIdx hs h < hs.length := by
  induction hs with
  | nil => cases hm
  | cons a t ih =>
      by_cases ht : h ∈ t
      · simp only [lastIdx, if_pos ht, List.length_cons]
        exact Nat.succ_lt_succ (ih ht)
      · simp [lastIdx, ht]

theorem le_lastIdx_of_getD (hs : List String) (h : String) (j : Nat)
    (hj : j < hs.length) (hg : hs.getD j "" = h) : j ≤ lastIdx hs h := by
  induction hs generalizing j with
  | nil => cases hj
  | cons a t ih =>
      cases j with
      | zero => exact Nat.zero_le _
      | succ j =>
          have hj' : j < t.length := by simpa using hj
          have hg' : t.getD j "" = h := by simpa using hg
          have hmem : h ∈ t := by
            rw [← hg', List.getD_eq_getElem t "" hj']
            exact List.getElem_mem hj'
          simp only [lastIdx, if_pos hmem]
          exact Nat.succ_le_succ (ih j hj' hg')

theorem getD_map_of_lt {α β : Type} (f : α → β) (l : List α) (i : Nat)
    (d : α) (d' : β) (hi : i < l.length) : (l.map f).getD i d' = f (l.getD i d) := by
  rw [List.getD_eq_getElem _ _ (by simpa using hi), List.getD_eq_getElem _ _ hi,
    List.getElem_map]

theorem buildRowAux_get_notmem (hs : List String) (f : String → String) (o : Obj)
    (h : String) (hnm : h ∉ hs) : jsGet (buildRowAux hs f o) h = jsGet o h := by
  induction hs generalizing o with
  | nil => rfl
  | cons a t ih =>
      have hne : a ≠ h := fun hh => hnm (hh ▸ List.mem_cons_self a t)
      have hnt : h ∉ t := fun hh => hnm (List.mem_cons_of_mem a hh)
      rw [buildRowAux, ih _ hnt, jsGet_jsSet, if_neg hne]

theorem buildRowAux_get_mem (hs : List String) (f : String → String) (o : Obj)
    (h : String) (hm : h ∈ hs) : jsGet (buildRowAux hs f o) h = some (f h) := by
  induction hs generalizing o with
  | nil => cases hm
  | cons a t ih =>
      by_cases ht : h ∈ t
      · rw [buildRowAux, ih _ ht]
      · have ha : a = h := by
          rcases List.mem_cons.mp hm with h1 | h1
          · exact h1.symm
          · exact absurd h1 ht
        rw [buildRowAux, buildRowAux_get_notmem _ _ _ _ ht, jsGet_jsSet, if_pos ha, ha]

/-! ## Laws of the autosave event model -/

theorem foldl_startFlush_timers {D : Type} (t : Nat) (l : List (Timer D)) (acc : AutoState D) :
    (l.foldl (fun a tm => startFlush t tm.snap a) acc).timers = acc.timers := by
  induction l generalizing acc with
  | nil => rfl
  | cons tm rest ih => rw [List.foldl_cons, ih]; rfl

theorem foldl_startFlush_savedHandle {D : Type} (t : Nat) (l : List (Timer D))
    (acc : AutoState D) :
    (l.foldl (fun a tm => startFlush t tm.snap a) acc).savedHandle = acc.savedHandle := by
  induction l generalizing acc with
  | nil => rfl
  | cons tm rest ih => rw [List.foldl_cons, ih]; rfl

theorem foldl_startFlush_flushLog {D : Type} (t : Nat) (l : List (Timer D)) (acc : AutoState D) :
    (l.foldl (fun a tm => startFlush t tm.snap a) acc).flushLog =
      acc.flushLog ++ l.map (fun tm => Flush.mk t tm.snap) := by
  induction l generalizing acc with
  | nil => simp
  | cons tm rest ih =>
      rw [List.foldl_cons, ih]
      simp [startFlush]

theorem foldl_startFlush_inFlight {D : Type} (t : Nat) (l : List (Timer D)) (acc : AutoState D) :
    (l.foldl (fun a tm => startFlush t tm.snap a) acc).inFlight =
      acc.inFlight ++ l.map (fun tm => Flush.mk t tm.snap) := by
  induction l generalizing acc with
  | nil => simp
  | cons tm rest ih =>
      rw [List.foldl_cons, ih]
      simp [startFlush]

theorem timersOk_step {D : Type} (s : AutoState D) (e : AEvent D) (h : timersOk s) :
    timersOk (step s e) := by
  cases e with
  | mutate t d =>
      by_cases hm : s.mounted
      · have hstep : step s (AEvent.mutate t d) = { schedule t s with editedData := d } := by
          simp [step, hm]
        right
        refine ⟨⟨s.nextId, t + 2000, s.editedData⟩, ?_, ?_⟩
        · rw [hstep]
          rcases h with h0 | ⟨tm, htm, hid⟩
          · simp [schedule, h0]
          · simp [schedule, htm, hid]
        · rw [hstep]
          simp [schedule]
      · simpa [step, hm] using h
  | fire t =>
      rcases h with h0 | ⟨tm, htm, hid⟩
      · left
        rw [step, foldl_startFlush_timers]
        simp [h0]
      · by_cases hd : tm.fireAt = t
        · left
          rw [step, foldl_startFlush_timers]
          simp [htm, hd]
        · right
          refine ⟨tm, ?_, ?_⟩
          · rw [step, foldl_startFlush_timers]
            simp [htm, hd]
          · rw [step, foldl_startFlush_savedHandle]
            exact hid
  | resolve t => simpa [step, timersOk] using h
  | manual t =>
      by_cases hm : s.mounted && s.inFlight.isEmpty
      · simpa [step, hm, timersOk, startFlush] using h
      · simpa [step, hm] using h
  | unmount t => simpa [step, timersOk] using h

theorem timersOk_foldl {D : Type} (evs : List (AEvent D)) (s : AutoState D) (h : timersOk s) :
    timersOk (evs.foldl step s) := by
  induction evs generalizing s with
  | nil => exact h
  | cons e rest ih => exact ih _ (timersOk_step s e h)

theorem timersOk_run {D : Type} (d : D) (evs : List (AEvent D)) : timersOk (run d evs) :=
  timersOk_foldl evs (initState d) (Or.inl rfl)

/-! ## CSV serialization lemmas -/

theorem foldr_escape_eq_flatMap (l : List Char) :
    l.foldr (fun c acc => if c = '"' then '"' :: '"' :: acc else c :: acc) [] =
      l.flatMap (fun c => if c = '"' then ['"', '"'] else [c]) := by
  induction l with
  | nil => rfl
  | cons c t ih => by_cases h : c = '"' <;> simp [h, ih]

theorem escapeQuotes_eq_spec (s : String) : escapeQuotes s = specDoubleQuotes s :=
  congrArg String.mk (foldr_escape_eq_flatMap s.data)

theorem csvNeedsQuote_iff (s : String) : csvNeedsQuote s = true ↔ specNeedsQuote s := by
  simp only [csvNeedsQuote, List.any_eq_true, Bool.or_eq_true, beq_iff_eq, specNeedsQuote]
  constructor
  · rintro ⟨c, hc, (rfl | rfl) | rfl⟩
    · exact Or.inl hc
    · exact Or.inr (Or.inl hc)
    · exact Or.inr (Or.inr hc)
  · rintro (hc | hc | hc)
    · exact ⟨_, hc, Or.inl (Or.inl rfl)⟩
    · exact ⟨_, hc, Or.inl (Or.inr rfl)⟩
    · exact ⟨_, hc, Or.inr rfl⟩

theorem isQuotedOutput_wrap (x : String) : isQuotedOutput ("\"" ++ x ++ "\"") = true := by
  have h2 : ("\"" ++ x ++ "\"").data = '"' :: (x.data ++ ['"']) := by
    simp [String.data_append]
  have h3 : ('"' :: (x.data ++ ['"'])).getLast? = some '"' := by
    rw [← List.cons_append]
    exact List.getLast?_concat _
  rw [isQuotedOutput, h2]
  simp [h3]

theorem isQuotedOutput_eq_false_of_no_quote (s : String) (h : '"' ∉ s.data) :
    isQuotedOutput s = false := by
  cases hd : s.data with
  | nil => simp [isQuotedOutput, hd]
  | cons c t =>
      have hc : c ≠ '"' := fun hh => h (hd ▸ (hh ▸ List.mem_cons_self c t))
      simp [isQuotedOutput, hd, hc]

theorem isQuotedOutput_csvCell (s : String) :
    isQuotedOutput (csvCell (some s)) = true ↔ specNeedsQuote s := by
  by_cases hq : csvNeedsQuote s = true
  · have hcell : csvCell (some s) = "\"" ++ escapeQuotes s ++ "\"" := by
      simp [csvCell, hq]
    rw [hcell]
    simp only [isQuotedOutput_wrap, true_iff]
    exact (csvNeedsQuote_iff s).mp hq
  · have hq' : csvNeedsQuote s = false := by revert hq; cases csvNeedsQuote s <;> simp
    have hcell : csvCell (some s) = s := by simp [csvCell, hq']
    have h1 : '"' ∉ s.data := by
      intro hmem
      apply hq
      simp only [csvNeedsQuote, List.any_eq_true]
      exact ⟨'"', hmem, by simp⟩
    rw [hcell, isQuotedOutput_eq_false_of_no_quote s h1]
    constructor
    · intro hh; simp at hh
    · intro hsp; exact absurd ((csvNeedsQuote_iff s).mpr hsp) hq

/-! ## Claim C1 -/

/-- Claim C1, counterexample: the claimed invariant "at most one flush in
flight in every reachable state" is false. After a mutation at t=0 whose
timer fires at t=2000, a second mutation at t=2100 whose timer fires at
t=4100 while the first fetch has not yet resolved, two flushes are in
flight at once: the code never checks for an in-flight flush before
dispatching, and nothing defers the second flush. -/
theorem c1_counterexample :
    ((run (0 : Nat) [AEvent.mutate 0 1, AEvent.fire 2000, AEvent.mutate 2100 2,
      AEvent.fire 4100]).inFlight).length = 2 ∧
    ¬ ((run (0 : Nat) [AEvent.mutate 0 1, AEvent.fire 2000, AEvent.mutate 2100 2,
      AEvent.fire 4100]).inFlight).length ≤ 1 := by
  constructor
  · rfl
  · decide

/-- Claim C1 (amended): the scheduler keeps at most one pending timer in
every reachable state (each scheduleAutoSave clears the previous timer
before registering the next), but it does not enforce at-most-one flush
in flight and has no follow-up mechanism: a timer that elapses starts
its flush immediately with the snapshot captured by its closure - also
when a flush is already in flight - and the resolution of a flush
dispatches nothing and leaves the timers untouched. -/
theorem c1_amended_inv :
    (∀ (D : Type) (d : D) (evs : List (AEvent D)), ((run d evs).timers).length ≤ 1) ∧
    (∀ (D : Type) (s : AutoState D) (tm : Timer D), s.timers = [tm] →
      (step s (AEvent.fire tm.fireAt)).inFlight = s.inFlight ++ [⟨tm.fireAt, tm.snap⟩] ∧
      (step s (AEvent.fire tm.fireAt)).flushLog = s.flushLog ++ [⟨tm.fireAt, tm.snap⟩]) ∧
    (∀ (D : Type) (s : AutoState D) (t : Nat),
      (step s (AEvent.resolve t)).flushLog = s.flushLog ∧
      (step s (AEvent.resolve t)).timers = s.timers ∧
      (step s (AEvent.resolve t)).inFlight = s.inFlight.drop 1) := by
  refine ⟨?_, ?_, ?_⟩
  · intro D d evs
    rcases timersOk_run d evs with h0 | ⟨tm, htm, _⟩
    · simp [h0]
    · simp [htm]
  · intro D s tm htm
    constructor
    · simp [step, htm, foldl_startFlush_inFlight, startFlush]
    · simp [step, htm, foldl_startFlush_flushLog, startFlush]
  · intro D s t
    exact ⟨rfl, rfl, rfl⟩

/-- Claim C1 (amended), witness: the pending-timer bound and the
fire-while-scheduled equations evaluated on concrete runs. -/
theorem c1_amended_inv_witness :
    ((run (0 : Nat) [AEvent.mutate 0 1, AEvent.mutate 500 2]).timers).length ≤ 1 ∧
    (step (run (0 : Nat) [AEvent.mutate 0 1]) (AEvent.fire 2000)).flushLog =
      (run (0 : Nat) [AEvent.mutate 0 1]).flushLog ++ [⟨2000, 0⟩] := by
  refine ⟨c1_amended_inv.1 Nat 0 _, ?_⟩
  exact (c1_amended_inv.2.1 Nat (run (0 : Nat) [AEvent.mutate 0 1]) ⟨0, 2000, 0⟩ rfl).2

/-! ## Claim C2 -/

/-- Claim C2, counterexample: a manual save while a debounce timer is
pending does flush immediately (here at t=1000 with the current document
snapshot 1), but it does not cancel the pending timer - `saveFile` never
touches `saveTimeout` - so the timer still fires at t=2000 and a second
flush is dispatched from it, refuting "no additional flush fires from
that timer". -/
theorem c2_counterexample :
    (run (0 : Nat) [AEvent.mutate 0 1, AEvent.manual 1000, AEvent.fire 2000]).flushLog =
      [⟨1000, 1⟩, ⟨2000, 0⟩] ∧
    ((run (0 : Nat) [AEvent.mutate 0 1, AEvent.manual 1000, AEvent.fire 2000]).flushLog).length ≠ 1 := by
  constructor
  · rfl
  · decide

/-- Claim C2 (amended): a manual save flushes the current Document
snapshot immediately, but it does not cancel the pending debounce timer:
the timer survives untouched and, when it elapses, dispatches one
additional flush carrying the snapshot its closure captured. -/
theorem c2_amended_manualSave (D : Type) (s : AutoState D) (tm : Timer D) (t1 : Nat)
    (hm : s.mounted = true) (hf : s.inFlight = []) (ht : s.timers = [tm]) :
    (step s (AEvent.manual t1)).flushLog = s.flushLog ++ [⟨t1, s.editedData⟩] ∧
    (step s (AEvent.manual t1)).timers = [tm] ∧
    (step (step s (AEvent.manual t1)) (AEvent.fire tm.fireAt)).flushLog =
      s.flushLog ++ [⟨t1, s.editedData⟩, ⟨tm.fireAt, tm.snap⟩] := by
  have hcond : (s.mounted && s.inFlight.isEmpty) = true := by simp [hm, hf]
  have hstep : step s (AEvent.manual t1) = startFlush t1 s.editedData s := by
    simp [step, hcond]
  refine ⟨?_, ?_, ?_⟩
  · rw [hstep]; rfl
  · rw [hstep]; exact ht
  · rw [hstep]
    simp [step, startFlush, ht]

/-- Claim C2 (amended), witness: after a mutation at t=0, a manual save
at t=1000 flushes at once and the surviving timer flushes again at
t=2000. -/
theorem c2_amended_manualSave_witness :
    (step (run (0 : Nat) [AEvent.mutate 0 1]) (AEvent.manual 1000)).flushLog = [⟨1000, 1⟩] ∧
    (step (step (run (0 : Nat) [AEvent.mutate 0 1]) (AEvent.manual 1000))
      (AEvent.fire 2000)).flushLog = [⟨1000, 1⟩, ⟨2000, 0⟩] := by
  have h := c2_amended_manualSave Nat (run (0 : Nat) [AEvent.mutate 0 1]) ⟨0, 2000, 0⟩ 1000
    rfl rfl rfl
  exact ⟨h.1, h.2.2⟩

/-! ## Claim C3 -/

/-- Claim C3 (code bug): the claim says a scheduled autosave timer is
cleared during teardown so that no flush of the discarded Document fires
after navigation away. The mount effect of the page returns no cleanup
function, so the timer scheduled by the mutation at t=0 survives the
unmount at t=1000 and its saveFile closure still dispatches a flush of
the discarded document at t=2000. -/
theorem c3_flushAfterTeardown :
    (run (0 : Nat) [AEvent.mutate 0 1, AEvent.unmount 1000, AEvent.fire 2000]).mounted = false ∧
    (run (0 : Nat) [AEvent.mutate 0 1, AEvent.unmount 1000, AEvent.fire 2000]).flushLog =
      [⟨2000, 0⟩] :=
  ⟨rfl, rfl⟩

/-! ## Claim C9 -/

/-- Claim C9 (code bug): mutations at t=0, 500 and 900 (documents 1, 2, 3
over initial document 0) coalesce into exactly one flush fired at
t=2900, as claimed - but the flush carries snapshot 2, the state as of
the t=500 mutation, not the claimed t=900 state 3: the setTimeout
callback closes over the scheduling render's `editedData`, which
predates the `setEditedData` call of the very mutation that scheduled
it, so the newest edit is always missing from the autosaved payload. -/
theorem c9_staleCoalescedFlush :
    (run (0 : Nat) [AEvent.mutate 0 1, AEvent.mutate 500 2, AEvent.mutate 900 3,
      AEvent.fire 2900]).flushLog = [⟨2900, 2⟩] ∧ (2 : Nat) ≠ 3 := by
  constructor
  · rfl
  · decide

/-! ## Claim C4 -/

theorem roundTripRow_value (headers : List String) (o : Obj) (h : String) (hmem : h ∈ headers) :
    rowValue (rowToObj headers (toGridRow headers o)) h = rowValue o h := by
  have hlt : lastIdx headers h < headers.length := lastIdx_lt_length headers h hmem
  have h1 := rowToObjAux_get_mem headers 0 (toGridRow headers o) [] h hmem
  rw [rowValue, rowToObj, h1, Option.getD_some, Nat.zero_add, toGridRow,
    getD_map_of_lt (rowValue o) headers _ "" "" hlt, lastIdx_getD headers h hmem]

/-- Claim C4: materializing a document (headers plus label-keyed rows)
into the dense grid (header row 0 first, then one cell per header per
row) and reconciling that grid back through the save path (grid row 0 as
headers, later rows keyed by header position) reproduces an equivalent
document: the same headers, the same number of rows, and for every
header the same row value as read through the `row?.[h] ?? ""` accessor.
No header-row text was edited in between, i.e. the header list is passed
through unchanged. -/
theorem c4_roundTrip (headers : List String) (rows : List Obj) :
    ∃ rows2, fromGridPair (toGrid headers rows) = some (headers, rows2) ∧
      rows2.length = rows.length ∧
      ∀ i h, h ∈ headers → rowValue (rows2.getD i []) h = rowValue (rows.getD i []) h := by
  refine ⟨(rows.map (toGridRow headers)).map (rowToObj headers), rfl, by simp, ?_⟩
  intro i h hmem
  by_cases hi : i < rows.length
  · have hi1 : i < (rows.map (toGridRow headers)).length := by simpa using hi
    rw [getD_map_of_lt (rowToObj headers) _ i (toGridRow headers []) [] hi1,
      getD_map_of_lt (toGridRow headers) rows i [] _ hi]
    exact roundTripRow_value headers (rows.getD i []) h hmem
  · have hge : rows.length ≤ i := by omega
    have hge1 : ((rows.map (toGridRow headers)).map (rowToObj headers)).length ≤ i := by
      simpa using hge
    rw [List.getD_eq_default _ _ hge, List.getD_eq_default _ _ hge1]

/-- Claim C4, witness: the round trip evaluated on the spec's example
document with headers Name and Age. -/
theorem c4_roundTrip_witness :
    ∃ rows2, fromGridPair (toGrid ["Name", "Age"] [[("Name", "Ann"), ("Age", "30")]]) =
      some (["Name", "Age"], rows2) ∧ rowValue (rows2.getD 0 []) "Age" = "30" := by
  obtain ⟨r2, h1, _, h3⟩ := c4_roundTrip ["Name", "Age"] [[("Name", "Ann"), ("Age", "30")]]
  refine ⟨r2, h1, ?_⟩
  have h4 := h3 0 "Age" (by simp)
  rw [h4]
  rfl

/-! ## Claim C5 -/

/-- Claim C5: the CSV serializer joins rows by newline and cells by
comma; a serialized cell is wrapped in double quotes (with internal
double quotes doubled, per the spec-worded `specDoubleQuotes`) if and
only if the cell string contains a comma, a double quote, or a newline;
a missing (`none`, modelling null/undefined) or empty cell serializes as
the empty string and never as a literal null/undefined token. -/
theorem c5_csvSerialization :
    (∀ g, csvContent g =
      String.intercalate "\n" (g.map (fun row => String.intercalate "," (row.map csvCell)))) ∧
    (∀ s, isQuotedOutput (csvCell (some s)) = true ↔ specNeedsQuote s) ∧
    (∀ s, csvCell (some s) =
      if csvNeedsQuote s then "\"" ++ specDoubleQuotes s ++ "\"" else s) ∧
    (∀ s, csvNeedsQuote s = true ↔ specNeedsQuote s) ∧
    csvCell none = "" ∧ csvCell (some "") = "" ∧ csvCell none ≠ "null" ∧
    csvCell none ≠ "undefined" := by
  refine ⟨fun g => rfl, isQuotedOutput_csvCell, ?_, csvNeedsQuote_iff, rfl, rfl,
    by decide, by decide⟩
  intro s
  by_cases hq : csvNeedsQuote s = true
  · simp [csvCell, hq, escapeQuotes_eq_spec]
  · have hq' : csvNeedsQuote s = false := by revert hq; cases csvNeedsQuote s <;> simp
    simp [csvCell, hq']

/-! ## Claim C6 -/

/-- Claim C6, counterexample: deleting the last remaining column through
handleDeleteColumn leaves zero headers - the grid [["A"], ["x"]] becomes
[[], []] - and does not substitute the header "Column 1" as claimed:
the only "Column 1" floor in the code runs at load time in fetchFile,
not in the delete-column path. -/
theorem c6_counterexample :
    handleDeleteColumn 0 0 [["A"], ["x"]] = [[], []] ∧
    (handleDeleteColumn 0 0 [["A"], ["x"]]).headD [] ≠ ["Column 1"] := by
  constructor
  · rfl
  · decide

/-- Claim C6 (amended): the one-header floor is enforced only at load
time - fetchFile's header normalization never returns an empty header
list, substituting ["Column 1"] when nothing usable is available - while
handleDeleteColumn applies no floor at all: deleting a selection that
spans every column leaves a grid whose header row is empty. -/
theorem c6_amended_floor :
    (∀ (rawHeaders : Option (List String)) (rows : List RawRow),
      fetchHeaders rawHeaders rows ≠ []) ∧
    (∀ (hrow : List String) (rest : List (List String)), hrow ≠ [] →
      (handleDeleteColumn 0 (hrow.length - 1) (hrow :: rest)).headD [] = []) := by
  constructor
  · intro rawHeaders rows
    simp only [fetchHeaders]
    split
    · split
      · simp
      · rename_i hne
        intro hc
        exact hne (by rw [hc]; rfl)
    · rename_i hne
      intro hc
      exact hne (by rw [hc]; rfl)
  · intro hrow rest hne
    have hlen : 1 ≤ hrow.length := by
      cases hrow with
      | nil => exact absurd rfl hne
      | cons a t => simp
    show removeColsRow (min 0 (hrow.length - 1))
      (max 0 (hrow.length - 1) - min 0 (hrow.length - 1) + 1) hrow = []
    have h2 : max 0 (hrow.length - 1) - min 0 (hrow.length - 1) + 1 = hrow.length := by
      omega
    have h1 : min 0 (hrow.length - 1) = 0 := by omega
    rw [removeColsRow, h2, h1]
    simp

/-- Claim C6 (amended), witness: the load floor and the floorless delete
evaluated on concrete inputs. -/
theorem c6_amended_floor_witness :
    fetchHeaders (some []) [] ≠ [] ∧
    (handleDeleteColumn 0 0 [["A"], ["x"]]).headD [] = [] :=
  ⟨c6_amended_floor.1 (some []) [], c6_amended_floor.2 ["A"] [["x"]] (by decide)⟩

/-! ## Claim C7 -/

/-- Claim C7, counterexample: handleCellChange never fails. With one row
present, a call at out-of-range row index 2 raises nothing and mutates
the document - the rows array is extended with a hole and a fresh row
object at index 2 - instead of failing with RangeError and leaving the
document unchanged; and a call with the label Z, which is not a current
header, raises nothing and adds the key Z to the row instead of failing
with InvalidColumn. -/
theorem c7_counterexample :
    handleCellChange [some [("A", "x")]] 2 "B" "v" =
      [some [("A", "x")], none, some [("B", "v")]] ∧
    handleCellChange [some [("A", "x")]] 2 "B" "v" ≠ [some [("A", "x")]] ∧
    handleCellChange [some [("A", "x")]] 0 "Z" "v" = [some [("A", "x"), ("Z", "v")]] := by
  refine ⟨rfl, by decide, rfl⟩

/-- Claim C7 (amended): neither precondition failure exists. An
out-of-range rowIdx makes handleCellChange extend the rows array to
length rowIdx+1 (holes at the skipped indices), install a fresh row
holding the given label and value, and thus change the document - it is
total and never signals an error; a label that is not a current header
is accepted by handleCellChange as a new key, while handleHotChange
silently skips a prop that is not a current header, leaving the
document unchanged without signalling InvalidColumn. -/
theorem c7_amended_setCell :
    (∀ (rows : SparseRows) (i : Nat) (h v : String), rows.length ≤ i →
      (handleCellChange rows i h v).length = i + 1 ∧
      jsGet (((handleCellChange rows i h v).getD i none).getD []) h = some v ∧
      handleCellChange rows i h v ≠ rows) ∧
    (∀ (headers : List String) (rows : SparseRows) (i : Nat) (p v : String),
      p ∉ headers → handleHotChangeStr headers rows i p v = rows) := by
  constructor
  · intro rows i h v hle
    have hnlt : ¬ i < rows.length := by omega
    simp only [handleCellChange, if_neg hnlt]
    set padded := rows ++ List.replicate (i + 1 - rows.length) none with hpad
    have hplen : padded.length = i + 1 := by
      rw [hpad]
      simp
      omega
    refine ⟨?_, ?_, ?_⟩
    · rw [List.length_set, hplen]
    · have hset : (padded.set i (some (jsSet ((padded.getD i none).getD []) h v))).getD i none
          = some (jsSet ((padded.getD i none).getD []) h v) := by
        rw [List.getD_eq_getElem _ _ (by rw [List.length_set]; omega)]
        exact List.getElem_set_self _
      rw [hset, Option.getD_some, jsGet_jsSet, if_pos rfl]
    · intro hc
      have hlen2 := congrArg List.length hc
      rw [List.length_set, hplen] at hlen2
      omega
  · intro headers rows i p v hnp
    simp [handleHotChangeStr, hnp]

/-- Claim C7 (amended), witness: the out-of-range write and the
skipped unknown prop evaluated on concrete inputs. -/
theorem c7_amended_setCell_witness :
    (handleCellChange [] 0 "A" "v").length = 1 ∧
    handleHotChangeStr ["H"] [some [("H", "x")]] 0 "Z" "v" = [some [("H", "x")]] :=
  ⟨(c7_amended_setCell.1 [] 0 "A" "v" (Nat.le_refl 0)).1,
    c7_amended_setCell.2 ["H"] [some [("H", "x")]] 0 "Z" "v" (by decide)⟩

/-! ## Claim C8 -/

theorem addColumnRow_get (newHeaders : List String) (newHeader : String) (row : Obj) :
    (newHeader ∈ newHeaders → jsGet (addColumnRow newHeaders newHeader row) newHeader = some "") ∧
    (∀ h, h ∈ newHeaders → h ≠ newHeader →
      jsGet (addColumnRow newHeaders newHeader row) h = some (rowValue row h)) := by
  constructor
  · intro hm
    rw [addColumnRow, buildRowAux_get_mem _ _ _ _ hm, if_pos rfl]
  · intro h hm hne
    rw [addColumnRow, buildRowAux_get_mem _ _ _ _ hm, if_neg hne]

/-- Claim C8, counterexample: the claim "values of all other columns are
unchanged" fails when the freshly computed auto-label collides with an
existing header. With the single header "Column 2", handleAddColumn
computes the auto-label "Column 2" (= k+1 with k=1) again, and the row's
existing "Column 2" value v is overwritten with the empty string. -/
theorem c8_counterexample :
    rowValue ((handleAddColumn ["Column 2"] [[("Column 2", "v")]] 1).2.getD 0 []) "Column 2" = "" ∧
    rowValue ([[("Column 2", "v")]].getD 0 []) "Column 2" = "v" ∧
    ("" : String) ≠ "v" := by
  refine ⟨by decide, by decide, by decide⟩

/-- Claim C8 (amended): inserting a column labels it "Column N" with
N = current header count + 1 computed at call time, splices it in at the
requested position, gives every existing row the empty string under the
new header, and leaves the values of all other columns unchanged -
provided the freshly computed label is not itself one of the existing
headers (if it is, the colliding column's values are reset, see the
counterexample). -/
theorem c8_amended_insertColumn (headers : List String) (rows : List Obj) (insertIndex : Nat)
    (hfresh : ("Column " ++ toString (headers.length + 1)) ∉ headers) :
    (handleAddColumn headers rows insertIndex).1 =
      headers.take insertIndex ++ ("Column " ++ toString (headers.length + 1)) ::
        headers.drop insertIndex ∧
    (insertIndex ≤ headers.length →
      (handleAddColumn headers rows insertIndex).1.length = headers.length + 1) ∧
    (handleAddColumn headers rows insertIndex).2.length = rows.length ∧
    (∀ i, i < rows.length →
      jsGet ((handleAddColumn headers rows insertIndex).2.getD i [])
        ("Column " ++ toString (headers.length + 1)) = some "") ∧
    (∀ i h, h ∈ headers →
      rowValue ((handleAddColumn headers rows insertIndex).2.getD i []) h =
        rowValue (rows.getD i []) h) := by
  have h2eq : (handleAddColumn headers rows insertIndex).2 =
      rows.map (addColumnRow
        (headers.take insertIndex ++ ("Column " ++ toString (headers.length + 1)) ::
          headers.drop insertIndex)
        ("Column " ++ toString (headers.length + 1))) := rfl
  have hmemNew : ("Column " ++ toString (headers.length + 1)) ∈
      headers.take insertIndex ++ ("Column " ++ toString (headers.length + 1)) ::
        headers.drop insertIndex :=
    List.mem_append_right _ (List.mem_cons_self _ _)
  have hmemOld : ∀ h, h ∈ headers → h ∈ headers.take insertIndex ++
      ("Column " ++ toString (headers.length + 1)) :: headers.drop insertIndex := by
    intro h hm
    rw [← List.take_append_drop insertIndex headers] at hm
    rcases List.mem_append.mp hm with h1 | h1
    · exact List.mem_append_left _ h1
    · exact List.mem_append_right _ (List.mem_cons_of_mem _ h1)
  refine ⟨rfl, ?_, by rw [h2eq]; simp, ?_, ?_⟩
  · intro hle
    show (headers.take insertIndex ++ ("Column " ++ toString (headers.length + 1)) ::
      headers.drop insertIndex).length = headers.length + 1
    simp only [List.length_append, List.length_cons, List.length_take, List.length_drop]
    omega
  · intro i hi
    rw [h2eq, getD_map_of_lt _ rows i [] [] hi]
    exact (addColumnRow_get _ _ _).1 hmemNew
  · intro i h hm
    by_cases hi : i < rows.length
    · rw [h2eq, getD_map_of_lt _ rows i [] [] hi]
      have hne : h ≠ ("Column " ++ toString (headers.length + 1)) :=
        fun he => hfresh (he ▸ hm)
      rw [rowValue, (addColumnRow_get _ _ _).2 h (hmemOld h hm) hne, Option.getD_some]
    · have hge : rows.length ≤ i := by omega
      have hge2 : (handleAddColumn headers rows insertIndex).2.length ≤ i := by
        rw [h2eq]
        simpa using hge
      rw [List.getD_eq_default _ _ hge2, List.getD_eq_default _ _ hge]

/-- Claim C8 (amended), witness: appending a column to the spec's example
document with headers Name and Age yields label "Column 3", an empty
value under it, and unchanged values elsewhere. -/
theorem c8_amended_insertColumn_witness :
    jsGet ((handleAddColumn ["Name", "Age"] [[("Name", "Ann"), ("Age", "30")]] 2).2.getD 0 [])
      "Column 3" = some "" ∧
    rowValue ((handleAddColumn ["Name", "Age"] [[("Name", "Ann"), ("Age", "30")]] 2).2.getD 0 [])
      "Age" = "30" := by
  have T := c8_amended_insertColumn ["Name", "Age"] [[("Name", "Ann"), ("Age", "30")]] 2
    (by decide)
  constructor
  · have h1 := T.2.2.2.1 0 (by decide)
    exact h1
  · have h2 := T.2.2.2.2 0 "Age" (by simp)
    rw [h2]
    rfl

/-! ## Claim C10 -/

/-- Claim C10: when the grid's header row holds the same label at two
positions i < j, the save reconciliation assigns cells to keys left to
right, so the surviving value under that label is the one of the
rightmost column bearing it (`lastIdx`, which is at least j, hence
right of i - the earlier duplicated columns' values are dropped from
the persisted row object); consequently the grid-level round-trip
property fails for such header rows: there are row values (distinct
values in the duplicated columns) that the save-then-load cycle does
not reproduce. -/
theorem c10_duplicateHeaderCollapse (hs : List String) (i j : Nat)
    (hij : i < j) (hj : j < hs.length) (hdup : hs.getD i "" = hs.getD j "") :
    (∀ cells, jsGet (rowToObj hs cells) (hs.getD i "") =
        some (cells.getD (lastIdx hs (hs.getD i "")) "") ∧
      j ≤ lastIdx hs (hs.getD i "")) ∧
    ∃ cells, cells.length = hs.length ∧ saveThenLoad [hs, cells] ≠ some [hs, cells] := by
  have hmem : hs.getD i "" ∈ hs := by
    rw [hdup, List.getD_eq_getElem hs "" hj]
    exact List.getElem_mem hj
  have hjle : j ≤ lastIdx hs (hs.getD i "") := le_lastIdx_of_getD hs _ j hj hdup.symm
  have hLlt : lastIdx hs (hs.getD i "") < hs.length := lastIdx_lt_length hs _ hmem
  have hilt : i < hs.length := Nat.lt_trans hij hj
  constructor
  · intro cells
    refine ⟨?_, hjle⟩
    rw [rowToObj, rowToObjAux_get_mem hs 0 cells [] _ hmem, Nat.zero_add]
  · obtain ⟨cells, hcells⟩ :
        ∃ c : List String, c = (List.range hs.length).map (fun k => if k = i then "0" else "1") :=
      ⟨_, rfl⟩
    have hclen : cells.length = hs.length := by rw [hcells]; simp
    refine ⟨cells, hclen, ?_⟩
    intro hcontra
    have hrow : saveThenLoad [hs, cells] =
        some [hs, hs.map (rowValue (rowToObj hs cells))] := rfl
    rw [hrow] at hcontra
    have h6 : hs.map (rowValue (rowToObj hs cells)) = cells := by
      have h5 : ([hs, hs.map (rowValue (rowToObj hs cells))] : List (List String)) =
        [hs, cells] := Option.some.inj hcontra
      simpa using h5
    have hv1 : (hs.map (rowValue (rowToObj hs cells))).getD i "" = "1" := by
      rw [getD_map_of_lt (rowValue (rowToObj hs cells)) hs i "" "" hilt, rowValue, rowToObj,
        rowToObjAux_get_mem hs 0 cells [] _ hmem, Nat.zero_add, Option.getD_some, hcells,
        getD_map_of_lt (fun k => if k = i then "0" else "1") (List.range hs.length) _ 0 ""
          (by simpa using hLlt)]
      have hr : (List.range hs.length).getD (lastIdx hs (hs.getD i "")) 0 =
          lastIdx hs (hs.getD i "") := by
        rw [List.getD_eq_getElem _ _ (by simpa using hLlt)]
        simp
      rw [hr, if_neg (by omega)]
    have hv2 : cells.getD i "" = "0" := by
      rw [hcells,
        getD_map_of_lt (fun k => if k = i then "0" else "1") (List.range hs.length) i 0 ""
          (by simpa using hilt)]
      have hr : (List.range hs.length).getD i 0 = i := by
        rw [List.getD_eq_getElem _ _ (by simpa using hilt)]
        simp
      rw [hr, if_pos rfl]
    rw [h6, hv2] at hv1
    exact absurd hv1 (by decide)

/-- Claim C10, witness: the duplicated header row ["A", "A"] evaluated
concretely - the persisted row keeps the rightmost value y, and a grid
with distinct values in the duplicated columns fails the round trip. -/
theorem c10_duplicateHeaderCollapse_witness :
    jsGet (rowToObj ["A", "A"] ["x", "y"]) "A" = some "y" ∧
    ∃ cells, cells.length = 2 ∧
      saveThenLoad [["A", "A"], cells] ≠ some [["A", "A"], cells] := by
  have T := c10_duplicateHeaderCollapse ["A", "A"] 0 1 (by decide) (by decide) (by decide)
  constructor
  · have h1 := (T.1 ["x", "y"]).1
    have e1 : (["A", "A"] : List String).getD 0 "" = "A" := rfl
    rw [e1] at h1
    rw [h1]
    decide
  · simpa using T.2

/-- Claim C5, witness: the serializer evaluated on a concrete cell
containing a comma (quoted) and on one without special characters
(left unquoted). -/
theorem c5_csvSerialization_witness :
    csvCell (some "a,b") = "\"a,b\"" ∧ isQuotedOutput (csvCell (some "ab")) = false := by
  constructor
  · rw [c5_csvSerialization.2.2.1 "a,b"]
    decide
  · by_contra hc
    have hb : isQuotedOutput (csvCell (some "ab")) = true := by
      revert hc
      cases isQuotedOutput (csvCell (some "ab")) <;> simp
    exact (by unfold specNeedsQuote; decide : ¬ specNeedsQuote "ab")
      ((c5_csvSerialization.2.1 "ab").mp hb)
